import Mathlib

/-!
Verification of the TermiCode execution server (`server/index.js`): the
Docker-backed interactive Python execution sessions.  We shallow-embed the
string-processing helpers (`cleanDockerOutput`, `isWaitingForInput`,
`extractInputPrompt`), the per-chunk stream handlers, the session registry
(`cleanupSession`, the expiry sweep) and the `waitForOutput` timeout branch,
and prove/refute the specified properties.

JavaScript strings are UTF-16; all data of interest here is plain text, so we
model them as `String`/`List Char`.  Each regex used by the server is a fixed
concrete pattern; we compile each one by hand into an executable Lean function
and document the translation at the definition site.
-/

/-! ## Character classes (JS `\s`, `\w`, the control ranges of the server) -/

/-- JS `\s` (the WhiteSpace and LineTerminator sets used by `trim()` and by
`\s` in regexes): TAB..CR, space, NBSP, and the Unicode space separators. -/
def jsWhitespace (c : Char) : Bool :=
  let n := c.toNat
  (0x09 ≤ n && n ≤ 0x0D) || n = 0x20 || n = 0xA0 || n = 0x1680 ||
  (0x2000 ≤ n && n ≤ 0x200A) || n = 0x2028 || n = 0x2029 || n = 0x202F ||
  n = 0x205F || n = 0x3000 || n = 0xFEFF

/-- JS `\w`: `[A-Za-z0-9_]`. -/
def isWordChar (c : Char) : Bool :=
  ('a' ≤ c && c ≤ 'z') || ('A' ≤ c && c ≤ 'Z') || ('0' ≤ c && c ≤ '9') || c = '_'

/-- The control bytes removed by the server's character class
`[\u0000-\u0008\u000B-\u000C\u000E-\u001F]` (note: CR `\u000D` is NOT in it). -/
def isStrippedCtrl (c : Char) : Bool :=
  let n := c.toNat
  n ≤ 0x08 || (0x0B ≤ n && n ≤ 0x0C) || (0x0E ≤ n && n ≤ 0x1F)

/-- ASCII lower-casing, the canonicalisation performed by the `/i` regex flag
for the server's all-ASCII keyword patterns. -/
def toLowerA (c : Char) : Char :=
  if 'A' ≤ c && c ≤ 'Z' then Char.ofNat (c.toNat + 32) else c

/-! ## Generic list-of-char utilities -/

/-- Whether `pat` occurs at the very start of `l`. -/
def headMatches (pat l : List Char) : Bool :=
  l.take pat.length = pat

/-- Whether `pat` occurs as a (contiguous) substring of `l`
(JS `pattern.test(line)` for a plain-literal pattern). -/
def hasSubstr (pat : List Char) : List Char → Bool
  | [] => headMatches pat []
  | c :: rest => headMatches pat (c :: rest) || hasSubstr pat rest

/-- JS `str.split('\n')`: `"" ↦ [""]`, a trailing separator yields a trailing
empty piece. -/
def splitNL : List Char → List (List Char)
  | [] => [[]]
  | c :: rest =>
    if c = '\n' then [] :: splitNL rest
    else
      match splitNL rest with
      | [] => [[c]]
      | l :: ls => (c :: l) :: ls

/-- JS `str.trim()`. -/
def jsTrim (l : List Char) : List Char :=
  ((l.dropWhile jsWhitespace).reverse.dropWhile jsWhitespace).reverse

/-- The server's `lines.filter(line => line.trim().length > 0).pop() || ''`:
last line containing a non-whitespace character, else empty. -/
def lastNonEmptyLine (l : List Char) : List Char :=
  (((splitNL l).filter (fun ln => ln.any (fun c => !jsWhitespace c))).getLast?).getD []

/-- Whether a text has no non-empty line: every line of it is whitespace-only
(`line.trim().length > 0` fails for each line). -/
def allLinesBlank (l : List Char) : Bool :=
  (splitNL l).all (fun ln => ln.all jsWhitespace)

/-! ## The sanitizer stages of `cleanDockerOutput` (server lines 445-454)

Stage 1: `.replace(/^\u0001\u0000\u0000\u0000\u0000\u0000\u0000[\u0000-￿]/g, '')`
— anchored at the string start (no `m` flag), so it fires at most once and
removes an 8-character Docker stream-frame header. -/

/-- The seven fixed header bytes `\u0001` + six `\u0000`. -/
def hdr7 : List Char := ['\x01', '\x00', '\x00', '\x00', '\x00', '\x00', '\x00']

/-- Whether the Docker-header regex matches at position 0: the seven fixed
bytes followed by one arbitrary BMP character. -/
def checkHeader (l : List Char) : Bool :=
  headMatches hdr7 l &&
    (match l.get? 7 with
     | some c => decide (c.toNat ≤ 0xFFFF)
     | none => false)

/-- Stage 1 of the sanitizer: strip the 8-character header when present. -/
def stripHeader (l : List Char) : List Char :=
  if checkHeader l then l.drop 8 else l

/-- Stage 2: `.replace(/\r\n/g, '\n')` — one left-to-right pass replacing
non-overlapping CRLF pairs (replacements are not rescanned). -/
def replaceCRLF : List Char → List Char
  | [] => []
  | [c] => [c]
  | c :: d :: rest =>
    if c = '\r' && d = '\n' then '\n' :: replaceCRLF rest
    else c :: replaceCRLF (d :: rest)

/-- Stage 3: `.replace(/[\u0000-\u0008\u000B-\u000C\u000E-\u001F]/g, '')`. -/
def stripCtrl (l : List Char) : List Char :=
  l.filter (fun c => !isStrippedCtrl c)

/-- The fixed Docker attach-configuration JSON literal the server deletes. -/
def dockerConfigLit : List Char :=
  String.data "\x7b\"stream\":true,\"stdin\":true,\"stdout\":true,\"stderr\":true,\"hijack\":true,\"demux\":true\x7d"

/-- Stage 4 engine: global replace of a fixed literal by `''` — delete all
non-overlapping occurrences scanning left to right.  The `fuel` argument only
makes the recursion structural; every step consumes at least one character, so
`fuel = l.length` (as used by `removeOcc`) never runs out. -/
def removeOccF (pat : List Char) : Nat → List Char → List Char
  | _, [] => []
  | 0, l => l
  | fuel + 1, c :: rest =>
    if headMatches pat (c :: rest) then
      removeOccF pat fuel ((c :: rest).drop pat.length)
    else c :: removeOccF pat fuel rest

/-- Stage 4: delete every occurrence of a fixed literal. -/
def removeOcc (pat l : List Char) : List Char :=
  removeOccF pat l.length l

/-! Stage 5: `.replace(/\{"(stream|stdin|stdout|stderr|hijack|demux)":(true|false)(,"(stream|stdin|stdout|stderr|hijack|demux)":(true|false))*\}/g, '')`.

The six keys are mutually non-prefix and `true`/`false` differ in their first
character, so the alternations are deterministic; each star iteration starts
with `,` while the closing brace is `}`, so greedy matching without
backtracking is equivalent to the JS engine.  We compile the regex to a
deterministic scanner. -/

/-- Try to consume a fixed literal at the head. -/
def expectLit (pat s : List Char) : Option (List Char) :=
  if headMatches pat s then some (s.drop pat.length) else none

/-- Consume one of the six capability keys. -/
def parseKey (s : List Char) : Option (List Char) :=
  match expectLit (String.data "stream") s with
  | some r => some r
  | none =>
  match expectLit (String.data "stdin") s with
  | some r => some r
  | none =>
  match expectLit (String.data "stdout") s with
  | some r => some r
  | none =>
  match expectLit (String.data "stderr") s with
  | some r => some r
  | none =>
  match expectLit (String.data "hijack") s with
  | some r => some r
  | none => expectLit (String.data "demux") s

/-- Consume `true` or `false`. -/
def parseBool (s : List Char) : Option (List Char) :=
  match expectLit (String.data "true") s with
  | some r => some r
  | none => expectLit (String.data "false") s

/-- Consume `"key":bool`. -/
def parsePair (s : List Char) : Option (List Char) :=
  match expectLit ['"'] s with
  | none => none
  | some s1 =>
  match parseKey s1 with
  | none => none
  | some s2 =>
  match expectLit ['"', ':'] s2 with
  | none => none
  | some s3 => parseBool s3

/-- Consume `,"key":bool` (one star iteration). -/
def parseStep (s : List Char) : Option (List Char) :=
  match expectLit [','] s with
  | none => none
  | some s1 => parsePair s1

/-- Greedily consume star iterations (fuel-structural; each iteration consumes
at least the comma, so `fuel = s.length` suffices). -/
def starPairsF : Nat → List Char → List Char
  | 0, s => s
  | fuel + 1, s =>
    match parseStep s with
    | some r => starPairsF fuel r
    | none => s

/-- Greedily consume all star iterations. -/
def starPairs (s : List Char) : List Char :=
  starPairsF s.length s

/-- Whole-pattern match at the current position: `{` pair (`,`pair)* `}`.
Returns the rest of the input after the match. -/
def matchConfigAt (s : List Char) : Option (List Char) :=
  match expectLit ['\x7b'] s with
  | none => none
  | some s1 =>
  match parsePair s1 with
  | none => none
  | some s2 => expectLit ['\x7d'] (starPairs s2)

/-- Stage 5 engine: global replace of the capability-object regex by `''`
(fuel-structural; every match consumes at least the brace). -/
def removeConfigsF : Nat → List Char → List Char
  | _, [] => []
  | 0, l => l
  | fuel + 1, c :: rest =>
    match matchConfigAt (c :: rest) with
    | some r => removeConfigsF fuel r
    | none => c :: removeConfigsF fuel rest

/-- Stage 5: delete every match of the generic capability-object regex. -/
def removeConfigs (l : List Char) : List Char :=
  removeConfigsF l.length l

/-- `cleanDockerOutput` (server lines 445-454), list form: header strip, CRLF
normalisation, control-byte strip, fixed-literal delete, generic
capability-object delete — in the server's order. -/
def cleanDockerOutputL (l : List Char) : List Char :=
  removeConfigs (removeOcc dockerConfigLit (stripCtrl (replaceCRLF (stripHeader l))))

/-- `cleanDockerOutput` on strings. -/
def cleanDockerOutput (s : String) : String :=
  ⟨cleanDockerOutputL s.data⟩

/-! ## The input-wait heuristic `isWaitingForInput` (server lines 363-415) -/

/-- The cleaning performed inside `isWaitingForInput`:
`output.replace(/\r/g, '')` then the anchored header strip. -/
def cleanIW (l : List Char) : List Char :=
  stripHeader (l.filter (fun c => c ≠ '\r'))

/-- Regex `/[\w\s]+\?(?:\s*)$/` compiled: since `?` is not whitespace, a match
forces the last non-whitespace character to be `?`, immediately preceded by at
least one `[\w\s]` character; the start is unanchored. -/
def hasQuestionPromptB (line : List Char) : Bool :=
  match line.reverse.dropWhile jsWhitespace with
  | c :: d :: _ => c = '?' && (isWordChar d || jsWhitespace d)
  | _ => false

/-- Regex `/[\w\s]+:(?:\s*)$/` compiled the same way with `:`. -/
def hasColonPromptB (line : List Char) : Bool :=
  match line.reverse.dropWhile jsWhitespace with
  | c :: d :: _ => c = ':' && (isWordChar d || jsWhitespace d)
  | _ => false

/-- The twenty keyword patterns tested with `/i`: case-insensitive substring
containment. -/
def inputKeywords : List (List Char) :=
  [String.data "enter", String.data "input", String.data "type", String.data "name",
   String.data "id", String.data "age", String.data "number", String.data "value",
   String.data "choice", String.data "select", String.data "provide", String.data "password",
   String.data "username", String.data "email", String.data "address", String.data "phone",
   String.data "continue", String.data "proceed", String.data "option", String.data "answer",
   String.data "response"]

/-- `commonInputPatterns.some(pattern => pattern.test(lastNonEmptyLine))`. -/
def hasInputKeywordB (line : List Char) : Bool :=
  inputKeywords.any (fun k => hasSubstr k (line.map toLowerA))

/-- Regex `/(?:>|\$|:|») ?$/`: ends with a prompt glyph optionally followed by
exactly one space. -/
def isPromptChar (c : Char) : Bool :=
  c = '>' || c = '$' || c = ':' || c = '»'

/-- Test of the prompt-glyph regex on the last non-empty line. -/
def endsWithPromptCharB (line : List Char) : Bool :=
  match line.reverse with
  | [] => false
  | c :: rest =>
    isPromptChar c ||
      (c = ' ' && (match rest with | d :: _ => isPromptChar d | [] => false))

/-- `cleanOutput.endsWith('\n\n')`. -/
def endsWithNN (l : List Char) : Bool :=
  match l.reverse with
  | '\n' :: '\n' :: _ => true
  | _ => false

/-- `cleanOutput.length < 100 && cleanOutput.split('\n').length <= 3`. -/
def isShortOutputB (clean : List Char) : Bool :=
  clean.length < 100 && (splitNL clean).length ≤ 3

/-- The heuristic's final boolean as a function of the last non-empty line and
the two whole-output signals (used to factor `isWaitingForInput`). -/
def iwCore (line : List Char) (endsNN shortOut : Bool) : Bool :=
  let hasQuestionPrompt := hasQuestionPromptB line
  let hasColonPrompt := hasColonPromptB line
  let hasInputKeyword := hasInputKeywordB line
  let endsWithPromptChar := endsWithPromptCharB line
  let hasStalled := decide (line ≠ []) && !endsNN
  hasQuestionPrompt || hasColonPrompt || hasInputKeyword || endsWithPromptChar ||
    (hasStalled && (shortOut || hasInputKeyword))

/-- `isWaitingForInput` (server lines 363-415): the falsy guard, the `\r` and
header cleaning, then the disjunction of the five signals, with the stalled
signal combined with `(isShortOutput || hasInputKeyword)`. -/
def isWaitingForInput (output : String) : Bool :=
  if output = "" then false
  else
    let cleanOutput := cleanIW output.data
    let line := lastNonEmptyLine cleanOutput
    iwCore line (endsWithNN cleanOutput) (isShortOutputB cleanOutput)

/-! ## `extractInputPrompt` (server lines 418-442) -/

/-- The cleaning performed inside `extractInputPrompt`: remove `\r`, strip the
header, strip the control bytes. -/
def cleanEX (l : List Char) : List Char :=
  stripCtrl (stripHeader (l.filter (fun c => c ≠ '\r')))

/-- Regex `/([^.!?:]+[?:])\s*$/` compiled: a match forces the last
non-whitespace character to be `?` or `:` (position `p`), captured together
with the maximal nonempty run of non-`.!?:` characters ending at `p-1`. -/
def promptMatch (line : List Char) : Option (List Char) :=
  match line.reverse.dropWhile jsWhitespace with
  | [] => none
  | c :: rest =>
    if c = '?' || c = ':' then
      let run := rest.takeWhile (fun d => !(d = '.' || d = '!' || d = '?' || d = ':'))
      if run = [] then none else some ((c :: run).reverse)
    else none

/-- The tail of `extractInputPrompt` once the last non-empty line is known:
if over 50 characters, try the trailing-clause regex and trim its capture;
otherwise (or if it fails) return the line verbatim. -/
def extractFromLine (line : List Char) : List Char :=
  if 50 < line.length then
    match promptMatch line with
    | some g => jsTrim g
    | none => line
  else line

/-- `extractInputPrompt` (server lines 418-442). -/
def extractInputPrompt (output : String) : String :=
  if output = "" then ""
  else ⟨extractFromLine (lastNonEmptyLine (cleanEX output.data))⟩

/-! ## Stream handlers and the session's `stdoutChunks` history

The attach stream is demultiplexed; the session's always-on `data` handler
(server lines 243-295) cleans each stdout (or non-demuxed) chunk with the
header strip, the control strip and the fixed-literal delete — no CRLF stage —
and pushes it onto `stdoutChunks`; stderr chunks go to `stderrChunks` instead.
`waitForOutput` (lines 518-581) subscribes a second handler on the same
stream which cleans every incoming chunk the same way and also pushes it onto
`session.stdoutChunks` (line 531), regardless of the chunk's stream type. -/

/-- Per-chunk cleaning shared by the session handler (lines 249-252) and the
`waitForOutput` data handler (lines 524-527): header strip, control strip,
fixed Docker-config literal delete. -/
def sessionChunkClean (s : String) : String :=
  ⟨removeOcc dockerConfigLit (stripCtrl (stripHeader s.data))⟩

/-- The demultiplexed stream type tag of a `data` event. -/
inductive StreamType
  | stdout
  | stderr
  | other
deriving DecidableEq

/-- One `data` event: the raw chunk, its type tag, and whether a
`waitForOutput` data handler is currently subscribed alongside the session's
always-on handler. -/
structure ChunkEvent where
  type : StreamType
  chunk : String
  waiterActive : Bool

/-- Delivery of one `data` event to all subscribed handlers, in subscription
order: the session handler first (pushes cleaned stdout/non-demuxed chunks),
then, if subscribed, the `waitForOutput` handler (pushes every cleaned chunk). -/
def deliverChunk (history : List String) (e : ChunkEvent) : List String :=
  let afterSession :=
    match e.type with
    | StreamType.stdout => history ++ [sessionChunkClean e.chunk]
    | StreamType.other => history ++ [sessionChunkClean e.chunk]
    | StreamType.stderr => history
  if e.waiterActive then afterSession ++ [sessionChunkClean e.chunk] else afterSession

/-- The session's `stdoutChunks` after a sequence of `data` events. -/
def runEvents (history : List String) (events : List ChunkEvent) : List String :=
  events.foldl deliverChunk history

/-! ## The new-session response (server lines 307-338) -/

/-- The response payload of `/api/execute` for a new session. -/
structure ExecResponse where
  output : String
  waitingForInput : Bool
  inputPrompt : String
deriving DecidableEq

/-- The cleaning applied to `currentOutput` for the response (lines 318-323):
header strip, CRLF normalisation, control strip, fixed-literal delete. -/
def respClean (s : String) : String :=
  ⟨removeOcc dockerConfigLit (stripCtrl (replaceCRLF (stripHeader s.data)))⟩

/-- The new-session response as a function of the accumulated `currentOutput`
(lines 312-338): `waitingForInput`/`inputPrompt` are computed on the raw
accumulator, `output` on its cleaned form. -/
def newSessionResponse (currentOutput : String) : ExecResponse :=
  { output := respClean currentOutput
    waitingForInput := isWaitingForInput currentOutput
    inputPrompt :=
      if isWaitingForInput currentOutput then extractInputPrompt currentOutput else "" }

/-- The accumulated `currentOutput` for a run whose program prints `hi\n` as a
single stdout chunk and exits (new-session path: no `waitForOutput` handler is
subscribed). `currentOutput` accumulates exactly the session-cleaned chunks. -/
def hiCurrentOutput : String :=
  String.join (runEvents [] [⟨StreamType.stdout, "hi\n", false⟩])

/-! ## The session registry, `cleanupSession` and the expiry sweep -/

/-- The per-session record stored in `activeSessions` (server lines 229-236);
we keep the fields the registry logic reads: the container (as an opaque
handle), `createdAt`, and the armed session timeout timer. -/
structure SessionData where
  container : Nat
  createdAt : Nat
  timer : Nat
deriving DecidableEq

/-- The `activeSessions` map, as an association list keyed by session id
(a JS `Map` has pairwise-distinct keys). -/
abbrev Registry := List (String × SessionData)

/-- Side effects performed by the session/container code. -/
inductive CtrAction
  | createContainer
  | startContainer
  | registrySet (sid : String)
  | clearTimer (t : Nat)
  | stopContainer (h : Nat)
  | removeContainer (h : Nat)
  | registryDelete (sid : String)
deriving DecidableEq

/-- `cleanupSession` (server lines 692-727): look up the id; when found, clear
the timer, stop then force-remove the container (all teardown errors are
swallowed by `.catch`), and delete the registry entry; when absent, do
nothing.  Returns the new registry and the actions performed. -/
def cleanupSession (reg : Registry) (sid : String) : Registry × List CtrAction :=
  match List.find? (fun e => e.1 == sid) reg with
  | some e =>
    (List.filter (fun e2 => e2.1 ≠ sid) reg,
     [CtrAction.clearTimer e.2.timer, CtrAction.stopContainer e.2.container,
      CtrAction.removeContainer e.2.container, CtrAction.registryDelete sid])
  | none => (reg, [])

/-- `n` sequential invocations of `cleanupSession` for the same id,
accumulating the actions. -/
def cleanupN : Nat → Registry → String → Registry × List CtrAction
  | 0, reg, _ => (reg, [])
  | n + 1, reg, sid =>
    let p1 := cleanupSession reg sid
    let p2 := cleanupN n p1.1 sid
    (p2.1, p1.2 ++ p2.2)

/-- Count of `stopContainer` actions. -/
def countStops (l : List CtrAction) : Nat :=
  l.countP (fun a => match a with | CtrAction.stopContainer _ => true | _ => false)

/-- Count of `removeContainer` actions. -/
def countRemoves (l : List CtrAction) : Nat :=
  l.countP (fun a => match a with | CtrAction.removeContainer _ => true | _ => false)

/-- Count of registry deletions. -/
def countRegDeletes (l : List CtrAction) : Nat :=
  l.countP (fun a => match a with | CtrAction.registryDelete _ => true | _ => false)

/-- The five-minute session lifetime (server: `5 * 60 * 1000` ms). -/
def sessionLifetimeMs : Nat := 5 * 60 * 1000

/-- One entry of the expiry sweep (server lines 730-738): call
`cleanupSession` on the session when it is older than the fixed lifetime.
JS computes `now - session.createdAt` on a past timestamp; Nat subtraction
truncates at 0 exactly where the JS comparison is false anyway. -/
def sweepStep (now : Nat) (acc : Registry × List CtrAction) (e : String × SessionData) :
    Registry × List CtrAction :=
  if sessionLifetimeMs < now - e.2.createdAt then
    let p := cleanupSession acc.1 e.1
    (p.1, acc.2 ++ p.2)
  else acc

/-- The whole sweep: fold the per-entry step over the (snapshot of the)
entries, starting from the live registry. -/
def sweep (now : Nat) (reg : Registry) : Registry × List CtrAction :=
  reg.foldl (sweepStep now) (reg, [])

/-- Keys of the expired entries of a registry snapshot (specification device
for reasoning about the sweep). -/
def expiredKeys (now : Nat) (todo : List (String × SessionData)) : List String :=
  (todo.filter (fun e => decide (sessionLifetimeMs < now - e.2.createdAt))).map
    (fun e => e.1)

/-! ## The new-run control flow (server lines 174-355)

`createContainer`, `container.start()` and `container.attach()` run inside the
`try`; `activeSessions.set(newSessionId, ...)` only happens after `attach`
succeeded.  The `catch` calls `cleanupSession(newSessionId)` and returns an
error response. -/

/-- Which of the three container steps succeed in a given run. -/
structure RunEnv where
  createOk : Bool
  startOk : Bool
  attachOk : Bool
deriving DecidableEq

/-- The new-run flow: returns the final registry, the container/registry
actions performed in order, and whether an error response was returned. -/
def newRunFlow (reg : Registry) (newId : String) (data : SessionData) (env : RunEnv) :
    Registry × List CtrAction × Bool :=
  if !env.createOk then
    -- createContainer threw: no container exists; catch → cleanupSession
    let p := cleanupSession reg newId
    (p.1, p.2, true)
  else if !env.startOk then
    -- container created, start threw; catch → cleanupSession
    let p := cleanupSession reg newId
    (p.1, [CtrAction.createContainer] ++ p.2, true)
  else if !env.attachOk then
    -- container created and started, attach threw; catch → cleanupSession
    let p := cleanupSession reg newId
    (p.1, [CtrAction.createContainer, CtrAction.startContainer] ++ p.2, true)
  else
    (reg ++ [(newId, data)],
     [CtrAction.createContainer, CtrAction.startContainer, CtrAction.registrySet newId],
     false)

/-! ## The `waitForOutput` absolute-timeout branch (server lines 460-511) -/

/-- The result of `container.inspect()`: running flag and exit code. -/
structure InspectInfo where
  running : Bool
  exitCode : Nat
deriving DecidableEq

/-- Resolution or rejection of the `waitForOutput` promise. -/
inductive WaitOutcome
  | resolved (output : String)
  | rejected (msg : String)
deriving DecidableEq

/-- The timeout branch's result plus whether `container.inspect()` was called. -/
structure TimeoutResult where
  outcome : WaitOutcome
  inspected : Bool
deriving DecidableEq

/-- Synthetic message for a live container with no output. -/
def stillRunningMsg : String :=
  "Program is running but not producing output. It may be performing a long calculation or waiting for more input."

/-- Synthetic message for a clean exit with no output. -/
def completedNoOutputMsg : String :=
  "Program completed successfully but produced no output."

/-- Rejection message when `inspect()` itself fails. -/
def inspectFailedMsg : String :=
  "Execution timed out and failed to check program status."

/-- The absolute-timeout callback of `waitForOutput` (server lines 462-511):
`existingOutput` is the join of the session's whole `stdoutChunks` history
(which includes chunks from earlier request turns); if nonempty the promise
resolves with it without inspecting the container; only if it is empty is the
container inspected and the outcome decided by `State.Running`/`ExitCode`.
`inspect = none` models a rejected `inspect()` call. -/
def waitTimeoutBranch (existingOutput : String) (inspect : Option InspectInfo) :
    TimeoutResult :=
  if existingOutput ≠ "" then ⟨WaitOutcome.resolved existingOutput, false⟩
  else
    match inspect with
    | some info =>
      if info.running then ⟨WaitOutcome.resolved stillRunningMsg, true⟩
      else if info.exitCode = 0 then ⟨WaitOutcome.resolved completedNoOutputMsg, true⟩
      else
        ⟨WaitOutcome.rejected ("Program exited with code " ++ toString info.exitCode), true⟩
    | none => ⟨WaitOutcome.rejected inspectFailedMsg, true⟩

/-! ## Sanitizer lemmas: deletion stages never introduce characters -/

/-- Characters of `removeOccF`'s output come from its input. -/
theorem mem_removeOccF (pat : List Char) :
    ∀ (fuel : Nat) (l : List Char) (c : Char), c ∈ removeOccF pat fuel l → c ∈ l := by
  intro fuel
  induction fuel with
  | zero =>
    intro l c h
    cases l with
    | nil => simpa [removeOccF] using h
    | cons x xs => simpa [removeOccF] using h
  | succ n ih =>
    intro l c h
    cases l with
    | nil => simpa [removeOccF] using h
    | cons x xs =>
      rw [removeOccF] at h
      by_cases hm : headMatches pat (x :: xs)
      · rw [if_pos hm] at h
        exact List.mem_of_mem_drop (ih _ _ h)
      · rw [if_neg hm] at h
        rcases List.mem_cons.mp h with h1 | h2
        · exact h1 ▸ List.mem_cons_self _ _
        · exact List.mem_cons_of_mem _ (ih _ _ h2)

/-- A successful `expectLit` returns a suffix-drop of its input. -/
theorem expectLit_mem {pat s r : List Char} (h : expectLit pat s = some r) :
    ∀ c ∈ r, c ∈ s := by
  unfold expectLit at h
  split at h
  · cases h
    intro c hc
    exact List.mem_of_mem_drop hc
  · cases h

/-- Characters surviving `parseKey` come from its input. -/
theorem parseKey_mem {s r : List Char} (h : parseKey s = some r) : ∀ c ∈ r, c ∈ s := by
  unfold parseKey at h
  repeat' split at h
  all_goals first
    | (cases h; intro c hc; exact expectLit_mem (by assumption) c hc)
    | (exact fun c hc => expectLit_mem h c hc)
    | cases h

/-- Characters surviving `parseBool` come from its input. -/
theorem parseBool_mem {s r : List Char} (h : parseBool s = some r) : ∀ c ∈ r, c ∈ s := by
  unfold parseBool at h
  split at h
  · cases h
    exact fun c hc => expectLit_mem (by assumption) c hc
  · exact fun c hc => expectLit_mem h c hc

/-- Characters surviving `parsePair` come from its input. -/
theorem parsePair_mem {s r : List Char} (h : parsePair s = some r) : ∀ c ∈ r, c ∈ s := by
  unfold parsePair at h
  repeat' split at h
  all_goals try cases h
  intro c hc
  exact expectLit_mem (by assumption) c
    (parseKey_mem (by assumption) c
      (expectLit_mem (by assumption) c (parseBool_mem (by assumption) c hc)))

/-- Characters surviving `parseStep` come from its input. -/
theorem parseStep_mem {s r : List Char} (h : parseStep s = some r) : ∀ c ∈ r, c ∈ s := by
  unfold parseStep at h
  split at h
  · cases h
  · intro c hc
    exact expectLit_mem (by assumption) c (parsePair_mem h c hc)

/-- Characters surviving the star loop come from its input. -/
theorem starPairsF_mem : ∀ (fuel : Nat) (s : List Char), ∀ c ∈ starPairsF fuel s, c ∈ s := by
  intro fuel
  induction fuel with
  | zero => intro s c hc; simpa [starPairsF] using hc
  | succ n ih =>
    intro s c hc
    rw [starPairsF] at hc
    split at hc
    · exact parseStep_mem (by assumption) c (ih _ c hc)
    · exact hc

/-- Characters after a successful `matchConfigAt` come from its input. -/
theorem matchConfigAt_mem {s r : List Char} (h : matchConfigAt s = some r) :
    ∀ c ∈ r, c ∈ s := by
  unfold matchConfigAt at h
  repeat' split at h
  all_goals try cases h
  intro c hc
  exact expectLit_mem (by assumption) c
    (parsePair_mem (by assumption) c
      (starPairsF_mem _ _ c (expectLit_mem (by assumption) c hc)))

/-- Characters of `removeConfigsF`'s output come from its input. -/
theorem mem_removeConfigsF :
    ∀ (fuel : Nat) (l : List Char) (c : Char), c ∈ removeConfigsF fuel l → c ∈ l := by
  intro fuel
  induction fuel with
  | zero =>
    intro l c h
    cases l with
    | nil => simpa [removeConfigsF] using h
    | cons x xs => simpa [removeConfigsF] using h
  | succ n ih =>
    intro l c h
    cases l with
    | nil => simpa [removeConfigsF] using h
    | cons x xs =>
      rw [removeConfigsF] at h
      split at h
      · exact matchConfigAt_mem (by assumption) c (ih _ _ h)
      · rcases List.mem_cons.mp h with h1 | h2
        · exact h1 ▸ List.mem_cons_self _ _
        · exact List.mem_cons_of_mem _ (ih _ _ h2)

/-- Every character of `cleanDockerOutputL l` survives the control-byte strip:
the two trailing deletion stages only remove characters. -/
theorem cleanL_no_ctrl (l : List Char) :
    ∀ c ∈ cleanDockerOutputL l, isStrippedCtrl c = false := by
  intro c hc
  unfold cleanDockerOutputL at hc
  have h1 : c ∈ removeOcc dockerConfigLit (stripCtrl (replaceCRLF (stripHeader l))) :=
    mem_removeConfigsF _ _ _ hc
  have h2 : c ∈ stripCtrl (replaceCRLF (stripHeader l)) := mem_removeOccF _ _ _ _ h1
  have h3 := (List.mem_filter.mp h2).2
  simpa using h3

/-! ## Sanitizer lemmas: stages are the identity on already-clean text -/

/-- The header test fails whenever the text has no stripped control byte
(the header starts with `\u0001`). -/
theorem checkHeader_eq_false (l : List Char) (h : ∀ c ∈ l, isStrippedCtrl c = false) :
    checkHeader l = false := by
  unfold checkHeader
  by_cases hm : headMatches hdr7 l
  · exfalso
    unfold headMatches at hm
    have hm2 : l.take hdr7.length = hdr7 := of_decide_eq_true hm
    have h1 : '\x01' ∈ l.take hdr7.length := by
      rw [hm2]; exact List.mem_cons_self _ _
    have h2 := h _ (List.mem_of_mem_take h1)
    simp [isStrippedCtrl] at h2
  · simp [hm]

/-- `stripHeader` is the identity on control-free text. -/
theorem stripHeader_id (l : List Char) (h : ∀ c ∈ l, isStrippedCtrl c = false) :
    stripHeader l = l := by
  unfold stripHeader
  rw [checkHeader_eq_false l h]
  simp

/-- `replaceCRLF` is the identity on CR-free text. -/
theorem replaceCRLF_id : ∀ l : List Char, '\r' ∉ l → replaceCRLF l = l := by
  intro l
  induction l with
  | nil => intro _; rfl
  | cons c rest ih =>
    intro h
    have hc : c ≠ '\r' := fun hc => h (hc ▸ List.mem_cons_self _ _)
    have hrest : '\r' ∉ rest := fun hr => h (List.mem_cons_of_mem _ hr)
    cases rest with
    | nil => rfl
    | cons d rest2 =>
      rw [replaceCRLF]
      rw [if_neg (by simp [hc])]
      rw [ih hrest]

/-- `stripCtrl` is the identity on control-free text. -/
theorem stripCtrl_id (l : List Char) (h : ∀ c ∈ l, isStrippedCtrl c = false) :
    stripCtrl l = l := by
  unfold stripCtrl
  rw [List.filter_eq_self]
  intro a ha
  simp [h a ha]

/-- `removeOccF` with a pattern starting with `{` is the identity on
brace-free text. -/
theorem removeOccF_id (hb : Char) (patRest : List Char) :
    ∀ (fuel : Nat) (l : List Char), hb ∉ l →
      removeOccF (hb :: patRest) fuel l = l := by
  intro fuel
  induction fuel with
  | zero =>
    intro l _
    cases l with
    | nil => rfl
    | cons x xs => rfl
  | succ n ih =>
    intro l hl
    cases l with
    | nil => rfl
    | cons x xs =>
      rw [removeOccF]
      have hx : x ≠ hb := fun hx => hl (hx ▸ List.mem_cons_self _ _)
      have hm : headMatches (hb :: patRest) (x :: xs) = false := by
        simp [headMatches, hx]
      rw [if_neg (by simp [hm])]
      rw [ih xs (fun hx => hl (List.mem_cons_of_mem _ hx))]

/-- `removeConfigsF` is the identity on brace-free text. -/
theorem removeConfigsF_id :
    ∀ (fuel : Nat) (l : List Char), '\x7b' ∉ l → removeConfigsF fuel l = l := by
  intro fuel
  induction fuel with
  | zero =>
    intro l _
    cases l with
    | nil => rfl
    | cons x xs => rfl
  | succ n ih =>
    intro l hl
    cases l with
    | nil => rfl
    | cons x xs =>
      have hx : x ≠ '\x7b' := fun hx => hl (hx ▸ List.mem_cons_self _ _)
      have hm : matchConfigAt (x :: xs) = none := by
        unfold matchConfigAt expectLit headMatches
        rw [if_neg (by simp [hx])]
      rw [removeConfigsF, hm]
      rw [ih xs (fun h2 => hl (List.mem_cons_of_mem _ h2))]

/-! ## Claim C6: surviving control bytes -/

/-- Claim C6 counterexample: the sanitizer keeps a carriage return that is not
part of an original CRLF pair, and its single CRLF pass can even re-form a
CRLF pair in the output (`"a\r\r\nb" ↦ "a\r\nb"`), so the output is neither
CR-free nor free of CRLF pairs. -/
theorem cleanDockerOutput_cr_survives :
    cleanDockerOutput "a\r\r\nb" = "a\r\nb" ∧
    '\r' ∈ (cleanDockerOutput "a\r\r\nb").data := by
  constructor
  · decide
  · decide

/-- Claim C6 (amended): for every input, the sanitizer's output contains no
byte of the stripped control class `0x00-0x08, 0x0B-0x0C, 0x0E-0x1F`
(newline and tab survive by design; carriage returns outside replaced CRLF
pairs and DEL `0x7F` also survive). -/
theorem cleanDockerOutput_no_stripped_ctrl (s : String) :
    (cleanDockerOutput s).data.all (fun c => !isStrippedCtrl c) = true := by
  rw [List.all_eq_true]
  intro c hc
  have h := cleanL_no_ctrl s.data c hc
  simp [h]

/-! ## Claim C7: idempotence of the sanitizer -/

/-- Claim C7 counterexample: `cleanDockerOutput` is not idempotent — on
`"\r\r\n"` one pass yields `"\r\n"` and a second pass yields `"\n"`. -/
theorem cleanDockerOutput_not_idempotent :
    cleanDockerOutput (cleanDockerOutput "\r\r\n") ≠ cleanDockerOutput "\r\r\n" := by
  decide

/-- Claim C7 (amended): the sanitizer is idempotent on every input whose
sanitized form contains no carriage return and no left brace; a second pass
can only act again through the re-formed-CRLF and reassembled-config-object
channels exhibited by the counterexample. -/
theorem cleanDockerOutput_idempotent_of_clean (s : String)
    (hcr : '\r' ∉ (cleanDockerOutput s).data)
    (hbr : '\x7b' ∉ (cleanDockerOutput s).data) :
    cleanDockerOutput (cleanDockerOutput s) = cleanDockerOutput s := by
  have hctrl : ∀ c ∈ (cleanDockerOutput s).data, isStrippedCtrl c = false :=
    cleanL_no_ctrl s.data
  show (⟨cleanDockerOutputL (cleanDockerOutput s).data⟩ : String) = cleanDockerOutput s
  have hlit : dockerConfigLit = '\x7b' :: dockerConfigLit.tail := by decide
  have hL : cleanDockerOutputL (cleanDockerOutput s).data = (cleanDockerOutput s).data := by
    unfold cleanDockerOutputL
    rw [stripHeader_id _ hctrl]
    rw [replaceCRLF_id _ hcr]
    rw [stripCtrl_id _ hctrl]
    rw [show removeOcc dockerConfigLit (cleanDockerOutput s).data =
          removeOccF dockerConfigLit (cleanDockerOutput s).data.length
            (cleanDockerOutput s).data from rfl]
    rw [hlit, removeOccF_id _ _ _ _ hbr]
    exact removeConfigsF_id _ _ hbr
  rw [hL]

/-- Witness for the amended C7 at a concrete clean input. -/
theorem cleanDockerOutput_idempotent_witness :
    cleanDockerOutput (cleanDockerOutput "hi\n") = cleanDockerOutput "hi\n" :=
  cleanDockerOutput_idempotent_of_clean "hi\n" (by decide) (by decide)

/-! ## Factoring the heuristic through its signals -/

/-- `isWaitingForInput` factors through the last non-empty line and the two
whole-output signals of the cleaned text. -/
theorem isWaitingForInput_factor (s : String) :
    isWaitingForInput s =
      iwCore (lastNonEmptyLine (cleanIW s.data)) (endsWithNN (cleanIW s.data))
        (isShortOutputB (cleanIW s.data)) := by
  by_cases h : s = ""
  · subst h
    decide
  · simp only [isWaitingForInput, if_neg h]

/-- `extractInputPrompt` factors through the last non-empty line of the
cleaned text. -/
theorem extractInputPrompt_factor (s : String) :
    extractInputPrompt s = ⟨extractFromLine (lastNonEmptyLine (cleanEX s.data))⟩ := by
  by_cases h : s = ""
  · subst h
    decide
  · simp only [extractInputPrompt, if_neg h]

/-! ## Claim C4: the heuristic as a function of the last non-empty line -/

/-- Claim C4 counterexample: `"abc"` and `"abc\n\n"` have the same last
non-empty line under the heuristic's cleaning, yet classify differently
(the stalled/short signals read the whole output). -/
theorem isWaitingForInput_not_last_line_function :
    lastNonEmptyLine (cleanIW (String.data "abc")) =
      lastNonEmptyLine (cleanIW (String.data "abc\n\n")) ∧
    isWaitingForInput "abc" = true ∧
    isWaitingForInput "abc\n\n" = false := by
  refine ⟨by decide, by decide, by decide⟩

/-- Claim C4 (amended): `isWaitingForInput` is a function of the last
non-empty line TOGETHER WITH the whole-output signals (trailing blank line;
length under 100 and at most 3 lines), and `extractInputPrompt` is a function
of the last non-empty line alone; in particular identical input text yields
identical results. -/
theorem heuristic_signal_function (s t : String)
    (h1 : lastNonEmptyLine (cleanIW s.data) = lastNonEmptyLine (cleanIW t.data))
    (h2 : endsWithNN (cleanIW s.data) = endsWithNN (cleanIW t.data))
    (h3 : isShortOutputB (cleanIW s.data) = isShortOutputB (cleanIW t.data))
    (h4 : lastNonEmptyLine (cleanEX s.data) = lastNonEmptyLine (cleanEX t.data)) :
    isWaitingForInput s = isWaitingForInput t ∧
    extractInputPrompt s = extractInputPrompt t := by
  constructor
  · rw [isWaitingForInput_factor, isWaitingForInput_factor, h1, h2, h3]
  · rw [extractInputPrompt_factor, extractInputPrompt_factor, h4]

/-- Witness for the amended C4 on two distinct raw texts with equal signals. -/
theorem heuristic_signal_function_witness :
    isWaitingForInput "x\ry" = isWaitingForInput "xy" ∧
    extractInputPrompt "x\ry" = extractInputPrompt "xy" :=
  heuristic_signal_function "x\ry" "xy" (by decide) (by decide) (by decide) (by decide)

/-! ## Claim C1: Scenario A (`print("hi")`) -/

/-- Claim C1 counterexample: for the `print("hi")` run the response output is
`"hi\n"` as claimed, but `waitingForInput` is `true`, not `false` — the
stalled-and-short signal fires on any short terminated output. -/
theorem scenarioA_counterexample :
    (newSessionResponse hiCurrentOutput).output = "hi\n" ∧
    (newSessionResponse hiCurrentOutput).waitingForInput ≠ false := by
  refine ⟨by decide, by decide⟩

/-- Claim C1 (amended): the `print("hi")` run responds with output `"hi\n"`,
`waitingForInput = true` and `inputPrompt = "hi"`. -/
theorem scenarioA_amended :
    newSessionResponse hiCurrentOutput =
      { output := "hi\n", waitingForInput := true, inputPrompt := "hi" } := by
  decide

/-! ## Claim C2: duplication of chunks while `waitForOutput` is subscribed -/

/-- Claim C2 failing run: a single stdout chunk `"x"` delivered while
`waitForOutput` is subscribed is pushed onto `stdoutChunks` twice (once by the
always-on session handler, once by the waiter's handler), so the history joins
to `"xx"` while the concatenation of the sanitized chunks in arrival order is
`"x"`. -/
theorem stdoutChunks_duplicated :
    runEvents [] [⟨StreamType.stdout, "x", true⟩] =
      [sessionChunkClean "x", sessionChunkClean "x"] ∧
    String.join (runEvents [] [⟨StreamType.stdout, "x", true⟩]) ≠ sessionChunkClean "x" := by
  refine ⟨by decide, by decide⟩

/-! ## Claim C3: attach failure after successful creation -/

/-- Claim C3 failing run: when `createContainer` and `start` succeed but
`attach` throws, the catch's `cleanupSession(newSessionId)` finds no registry
entry (the session is only registered after attach), so the started container
is never stopped or removed; a pure creation failure, by contrast, performs no
container action at all. -/
theorem attach_failure_leaves_orphan :
    newRunFlow [] "s1" ⟨1, 0, 2⟩ ⟨true, true, false⟩ =
      ([], [CtrAction.createContainer, CtrAction.startContainer], true) ∧
    newRunFlow [] "s1" ⟨1, 0, 2⟩ ⟨false, true, true⟩ = ([], [], true) := by
  refine ⟨by decide, by decide⟩

/-! ## Claim C5: the absolute-timeout branch -/

/-- Claim C5 counterexample: with zero bytes received during the call but
nonempty history from an earlier turn (`"done!\n\n"`, which the heuristic does
not classify as a prompt, so the earlier 5-second probe does not resolve the
wait), a container that exited with a nonzero code is NOT inspected and the
promise resolves with the history instead of rejecting with the exit code. -/
theorem waitTimeout_prior_history_skips_inspect :
    (waitTimeoutBranch "done!\n\n" (some ⟨false, 3⟩)).inspected = false ∧
    (waitTimeoutBranch "done!\n\n" (some ⟨false, 3⟩)).outcome =
      WaitOutcome.resolved "done!\n\n" ∧
    isWaitingForInput "done!\n\n" = false := by
  refine ⟨by decide, by decide, by decide⟩

/-- Claim C5 (amended): when the timeout fires the branch first consults the
session's stored output history; only when it is empty is the container
inspected, and then the status decides the outcome exactly as claimed (still
running → synthetic still-running message; exited 0 → synthetic
completed-no-output message; exited nonzero → rejection carrying the code);
with nonempty history it resolves with the history and never inspects. -/
theorem waitTimeout_empty_history_inspects (info : InspectInfo) :
    (waitTimeoutBranch "" (some info)).inspected = true ∧
    (info.running = true →
      (waitTimeoutBranch "" (some info)).outcome = WaitOutcome.resolved stillRunningMsg) ∧
    (info.running = false → info.exitCode = 0 →
      (waitTimeoutBranch "" (some info)).outcome =
        WaitOutcome.resolved completedNoOutputMsg) ∧
    (info.running = false → info.exitCode ≠ 0 →
      (waitTimeoutBranch "" (some info)).outcome =
        WaitOutcome.rejected ("Program exited with code " ++ toString info.exitCode)) ∧
    (∀ h : String, h ≠ "" →
      waitTimeoutBranch h (some info) = ⟨WaitOutcome.resolved h, false⟩) := by
  refine ⟨?_, ?_, ?_, ?_, ?_⟩
  · rcases info with ⟨running, code⟩
    cases running <;> by_cases h0 : code = 0 <;> simp [waitTimeoutBranch, h0]
  · intro hr
    simp [waitTimeoutBranch, hr]
  · intro hr he
    simp [waitTimeoutBranch, hr, he]
  · intro hr he
    simp [waitTimeoutBranch, hr, he]
  · intro h hne
    simp [waitTimeoutBranch, hne]

/-- Witness for the amended C5 at a concrete exited-nonzero inspection. -/
theorem waitTimeout_empty_history_inspects_witness :
    (waitTimeoutBranch "" (some ⟨false, 2⟩)).outcome =
      WaitOutcome.rejected "Program exited with code 2" :=
  (waitTimeout_empty_history_inspects ⟨false, 2⟩).2.2.2.1 rfl (by decide)

/-! ## Claim C8: idempotent teardown -/

/-- A lookup after `cleanupSession` removed the key always fails. -/
theorem find?_after_cleanup (reg : Registry) (sid : String) :
    List.find? (fun e => e.1 == sid) (List.filter (fun e2 => e2.1 ≠ sid) reg) = none := by
  rw [List.find?_eq_none]
  intro x hx
  have hne := (List.mem_filter.mp hx).2
  simp only [decide_eq_true_eq] at hne
  simp [hne]

/-- The registry part of `cleanupSession` is always the key-filtered registry
(when the id is absent the filter removes nothing). -/
theorem cleanupSession_reg (reg : Registry) (sid : String) :
    (cleanupSession reg sid).1 = List.filter (fun e2 => e2.1 ≠ sid) reg := by
  unfold cleanupSession
  cases hf : List.find? (fun e => e.1 == sid) reg with
  | some e => rfl
  | none =>
    rw [List.find?_eq_none] at hf
    simp only
    rw [eq_comm, List.filter_eq_self]
    intro a ha
    have := hf a ha
    simp at this
    simp [this]

/-- A second `cleanupSession` on the same id is a no-op. -/
theorem cleanupSession_idem (reg : Registry) (sid : String) :
    cleanupSession (cleanupSession reg sid).1 sid = ((cleanupSession reg sid).1, []) := by
  rw [cleanupSession_reg reg sid]
  unfold cleanupSession
  rw [find?_after_cleanup]

/-- Any positive number of sequential `cleanupSession` calls equals a single
call: every call after the first performs no action. -/
theorem cleanupN_after (m : Nat) (reg : Registry) (sid : String) :
    cleanupN m (cleanupSession reg sid).1 sid = ((cleanupSession reg sid).1, []) := by
  induction m with
  | zero => rfl
  | succ k ih =>
    show (let p1 := cleanupSession (cleanupSession reg sid).1 sid
          let p2 := cleanupN k p1.1 sid
          ((p2.1, p1.2 ++ p2.2) : Registry × List CtrAction)) =
        ((cleanupSession reg sid).1, [])
    simp only [cleanupSession_idem reg sid]
    simp [ih]

/-- Any positive number of sequential `cleanupSession` calls equals a single
call: every call after the first performs no action. -/
theorem cleanupN_eq (n : Nat) (hn : 1 ≤ n) (reg : Registry) (sid : String) :
    cleanupN n reg sid = cleanupSession reg sid := by
  cases n with
  | zero => omega
  | succ m =>
    show (let p1 := cleanupSession reg sid
          let p2 := cleanupN m p1.1 sid
          ((p2.1, p1.2 ++ p2.2) : Registry × List CtrAction)) = cleanupSession reg sid
    simp only [cleanupN_after m reg sid]
    simp

/-- Claim C8: for a registered session id, any `n ≥ 2` sequential
`cleanupSession` invocations perform exactly one container stop, one container
removal and one registry deletion in total; the final registry is the
key-filtered one, and a further invocation on it finds nothing and performs no
action (and the JS function never throws: all teardown errors are caught). -/
theorem cleanupSession_idempotent (reg : Registry) (sid : String) (n : Nat)
    (hn : 2 ≤ n) (hmem : (List.find? (fun e => e.1 == sid) reg).isSome = true) :
    countStops (cleanupN n reg sid).2 = 1 ∧
    countRemoves (cleanupN n reg sid).2 = 1 ∧
    countRegDeletes (cleanupN n reg sid).2 = 1 ∧
    (cleanupN n reg sid).1 = List.filter (fun e2 => e2.1 ≠ sid) reg ∧
    cleanupSession (cleanupN n reg sid).1 sid = ((cleanupN n reg sid).1, []) := by
  rw [cleanupN_eq n (by omega) reg sid]
  obtain ⟨e, he⟩ := Option.isSome_iff_exists.mp hmem
  refine ⟨?_, ?_, ?_, cleanupSession_reg reg sid, cleanupSession_idem reg sid⟩
  all_goals
    simp [cleanupSession, he, countStops, countRemoves, countRegDeletes, List.countP_cons]

/-- Witness for C8 at a concrete one-session registry and `n = 2`. -/
theorem cleanupSession_idempotent_witness :
    countStops (cleanupN 2 [("a", ⟨5, 0, 7⟩)] "a").2 = 1 ∧
    countRemoves (cleanupN 2 [("a", ⟨5, 0, 7⟩)] "a").2 = 1 ∧
    countRegDeletes (cleanupN 2 [("a", ⟨5, 0, 7⟩)] "a").2 = 1 ∧
    (cleanupN 2 [("a", ⟨5, 0, 7⟩)] "a").1 =
      List.filter (fun e2 => e2.1 ≠ "a") [("a", ⟨5, 0, 7⟩)] ∧
    cleanupSession (cleanupN 2 [("a", ⟨5, 0, 7⟩)] "a").1 "a" =
      ((cleanupN 2 [("a", ⟨5, 0, 7⟩)] "a").1, []) :=
  cleanupSession_idempotent [("a", ⟨5, 0, 7⟩)] "a" 2 (by omega) (by decide)

/-! ## Claim C9: the expiry sweep -/

/-- The registry left by the sweep's fold is the start registry minus every
key that some expired snapshot entry carries. -/
theorem sweep_foldl_reg (now : Nat) :
    ∀ (todo : List (String × SessionData)) (r : Registry) (acts : List CtrAction),
      (List.foldl (sweepStep now) (r, acts) todo).1 =
        r.filter (fun e => !((expiredKeys now todo).contains e.1)) := by
  intro todo
  induction todo with
  | nil =>
    intro r acts
    simp [expiredKeys]
  | cons x rest ih =>
    intro r acts
    by_cases hexp : sessionLifetimeMs < now - x.2.createdAt
    · have hstep : sweepStep now (r, acts) x =
          ((cleanupSession r x.1).1, acts ++ (cleanupSession r x.1).2) := by
        simp [sweepStep, hexp]
      rw [List.foldl_cons, hstep, ih, cleanupSession_reg, List.filter_filter]
      have hkeys : expiredKeys now (x :: rest) = x.1 :: expiredKeys now rest := by
        simp [expiredKeys, List.filter_cons, hexp]
      rw [hkeys]
      apply List.filter_congr
      intro a _
      cases hbeq : a.1 == x.1 with
      | true =>
        have : a.1 = x.1 := by simpa using hbeq
        simp [this]
      | false =>
        have : a.1 ≠ x.1 := by simpa using hbeq
        simp [this, hbeq]
    · have hstep : sweepStep now (r, acts) x = (r, acts) := by
        simp [sweepStep, hexp]
      rw [List.foldl_cons, hstep, ih]
      have hkeys : expiredKeys now (x :: rest) = expiredKeys now rest := by
        simp [expiredKeys, List.filter_cons, hexp]
      rw [hkeys]

/-- Actions already accumulated survive the rest of the fold. -/
theorem sweep_foldl_acts_mono (now : Nat) :
    ∀ (todo : List (String × SessionData)) (st : Registry × List CtrAction)
      (a : CtrAction), a ∈ st.2 → a ∈ (List.foldl (sweepStep now) st todo).2 := by
  intro todo
  induction todo with
  | nil => intro st a ha; exact ha
  | cons x rest ih =>
    intro st a ha
    rw [List.foldl_cons]
    apply ih
    unfold sweepStep
    split
    · exact List.mem_append_left _ ha
    · exact ha

/-- In a registry with pairwise-distinct keys, the lookup for a member's key
returns precisely that member. -/
theorem find?_of_nodup :
    ∀ (r : Registry) (e : String × SessionData),
      (r.map (fun x => x.1)).Nodup → e ∈ r →
      List.find? (fun x => x.1 == e.1) r = some e := by
  intro r
  induction r with
  | nil => intro e _ he; cases he
  | cons x xs ih =>
    intro e hnd he
    rcases List.mem_cons.mp he with he1 | he2
    · subst he1
      simp [List.find?_cons]
    · rw [List.map_cons] at hnd
      have hnd2 := List.nodup_cons.mp hnd
      have hx : (x.1 == e.1) = false := by
        by_contra hcontra
        have hx1 : x.1 = e.1 := by
          cases hbeq : x.1 == e.1 with
          | true => simpa using hbeq
          | false => exact absurd hbeq hcontra
        exact hnd2.1 (hx1 ▸ List.mem_map_of_mem (fun y => y.1) he2)
      rw [List.find?_cons, hx]
      exact ih e hnd2.2 he2

/-- For every expired snapshot entry still present in a distinct-key registry,
the fold emits the stop of precisely that entry's container. -/
theorem sweep_stop_emitted (now : Nat) :
    ∀ (todo : List (String × SessionData)) (r : Registry) (acts : List CtrAction)
      (e : String × SessionData),
      e ∈ todo → sessionLifetimeMs < now - e.2.createdAt →
      (todo.map (fun x => x.1)).Nodup → (r.map (fun x => x.1)).Nodup → e ∈ r →
      CtrAction.stopContainer e.2.container ∈ (List.foldl (sweepStep now) (r, acts) todo).2 := by
  intro todo
  induction todo with
  | nil => intro r acts e he; cases he
  | cons x rest ih =>
    intro r acts e he hexp hndt hndr her
    rw [List.map_cons] at hndt
    have hndt2 := List.nodup_cons.mp hndt
    rcases List.mem_cons.mp he with he1 | he2
    · subst he1
      have hfind := find?_of_nodup r e hndr her
      have hstep : sweepStep now (r, acts) e =
          ((cleanupSession r e.1).1,
           acts ++ [CtrAction.clearTimer e.2.timer, CtrAction.stopContainer e.2.container,
                    CtrAction.removeContainer e.2.container, CtrAction.registryDelete e.1]) := by
        simp only [sweepStep, if_pos hexp, cleanupSession, hfind]
      rw [List.foldl_cons, hstep]
      apply sweep_foldl_acts_mono
      simp
    · have hkey : e.1 ≠ x.1 := by
        intro hcontra
        exact hndt2.1 (hcontra ▸ List.mem_map_of_mem (fun y => y.1) he2)
      by_cases hexpx : sessionLifetimeMs < now - x.2.createdAt
      · have hstep : sweepStep now (r, acts) x =
            ((cleanupSession r x.1).1, acts ++ (cleanupSession r x.1).2) := by
          simp [sweepStep, hexpx]
        rw [List.foldl_cons, hstep, cleanupSession_reg]
        apply ih _ _ e he2 hexp hndt2.2
        · have hsub : ((List.filter (fun e2 => e2.1 ≠ x.1) r).map (fun y => y.1)).Sublist
              (r.map (fun y => y.1)) := (List.filter_sublist r).map _
          exact hndr.sublist hsub
        · rw [List.mem_filter]
          exact ⟨her, by simp [hkey]⟩
      · have hstep : sweepStep now (r, acts) x = (r, acts) := by
          simp [sweepStep, hexpx]
        rw [List.foldl_cons, hstep]
        exact ih _ _ e he2 hexp hndt2.2 hndr her

/-- Claim C9: after the sweep no session whose age strictly exceeds the
five-minute lifetime remains in the registry (independent of activity: only
`createdAt` is consulted), and each expired session's key is gone while the
stop of its container has been triggered. -/
theorem sweep_removes_expired (now : Nat) (reg : Registry)
    (hnd : (reg.map (fun x => x.1)).Nodup) :
    (∀ e ∈ (sweep now reg).1, ¬ sessionLifetimeMs < now - e.2.createdAt) ∧
    (∀ e ∈ reg, sessionLifetimeMs < now - e.2.createdAt →
      (∀ e2 ∈ (sweep now reg).1, e2.1 ≠ e.1) ∧
      CtrAction.stopContainer e.2.container ∈ (sweep now reg).2) := by
  have hreg : (sweep now reg).1 =
      reg.filter (fun e => !((expiredKeys now reg).contains e.1)) := by
    unfold sweep
    exact sweep_foldl_reg now reg reg []
  constructor
  · intro e he hexp
    rw [hreg, List.mem_filter] at he
    have hkey : e.1 ∈ expiredKeys now reg := by
      unfold expiredKeys
      exact List.mem_map_of_mem _ (List.mem_filter.mpr ⟨he.1, by simp [hexp]⟩)
    have h2 := he.2
    simp only [List.contains, List.elem_eq_mem, Bool.not_eq_true',
      decide_eq_false_iff_not] at h2
    exact h2 hkey
  · intro e he hexp
    constructor
    · intro e2 he2 hcontra
      rw [hreg, List.mem_filter] at he2
      have hkey : e.1 ∈ expiredKeys now reg := by
        unfold expiredKeys
        exact List.mem_map_of_mem _ (List.mem_filter.mpr ⟨he, by simp [hexp]⟩)
      have h2 := he2.2
      simp only [List.contains, List.elem_eq_mem, Bool.not_eq_true',
        decide_eq_false_iff_not] at h2
      exact h2 (hcontra ▸ hkey)
    · unfold sweep
      exact sweep_stop_emitted now reg reg [] e he hexp hnd hnd he

/-- Witness for C9 at a concrete expired session. -/
theorem sweep_removes_expired_witness :
    CtrAction.stopContainer 5 ∈ (sweep 300001 [("a", ⟨5, 0, 7⟩)]).2 :=
  ((sweep_removes_expired 300001 [("a", ⟨5, 0, 7⟩)] (by decide)).2
    ("a", ⟨5, 0, 7⟩) (by decide) (by decide)).2

/-! ## Claim C10: whitespace-only output is never classified as waiting -/

/-- `splitNL` never returns the empty list. -/
theorem splitNL_ne_nil : ∀ l : List Char, splitNL l ≠ [] := by
  intro l
  cases l with
  | nil => simp [splitNL]
  | cons c rest =>
    by_cases hc : c = '\n'
    · simp [splitNL, hc]
    · simp only [splitNL, if_neg hc]
      split <;> simp

/-- Filtering with a newline-preserving predicate commutes with splitting
into lines. -/
theorem splitNL_filter (p : Char → Bool) (hp : p '\n' = true) :
    ∀ l : List Char, splitNL (l.filter p) = (splitNL l).map (fun ln => ln.filter p) := by
  intro l
  induction l with
  | nil => simp [splitNL]
  | cons c rest ih =>
    cases hsp : splitNL rest with
    | nil => exact absurd hsp (splitNL_ne_nil rest)
    | cons l0 ls0 =>
      have hfil : splitNL (rest.filter p) =
          (l0.filter p) :: ls0.map (fun ln => ln.filter p) := by
        rw [ih, hsp, List.map_cons]
      by_cases hc : c = '\n'
      · subst hc
        rw [List.filter_cons, if_pos hp]
        have hL : splitNL ('\n' :: rest.filter p) = [] :: splitNL (rest.filter p) := by
          simp [splitNL]
        have hR : splitNL ('\n' :: rest) = [] :: splitNL rest := by
          simp [splitNL]
        rw [hL, hfil, hR, hsp]
        simp
      · have hR : splitNL (c :: rest) = (c :: l0) :: ls0 := by
          simp only [splitNL, if_neg hc, hsp]
        by_cases hpc : p c = true
        · rw [List.filter_cons, if_pos hpc]
          have hL : splitNL (c :: rest.filter p) =
              (c :: (l0.filter p)) :: ls0.map (fun ln => ln.filter p) := by
            simp only [splitNL, if_neg hc, hfil]
          rw [hL, hR, List.map_cons, List.filter_cons, if_pos hpc]
        · have hpc2 : p c = false := by
            cases hx : p c with
            | true => exact absurd hx hpc
            | false => rfl
          rw [List.filter_cons, if_neg (by simp [hpc2])]
          rw [hfil, hR, List.map_cons, List.filter_cons, if_neg (by simp [hpc2])]

/-- Every character of a text is a newline or belongs to some line. -/
theorem mem_splitNL :
    ∀ (l : List Char) (c : Char), c ∈ l → c = '\n' ∨ ∃ ln ∈ splitNL l, c ∈ ln := by
  intro l
  induction l with
  | nil => intro c hc; cases hc
  | cons d rest ih =>
    intro c hc
    cases hsp : splitNL rest with
    | nil => exact absurd hsp (splitNL_ne_nil rest)
    | cons l0 ls0 =>
      rcases List.mem_cons.mp hc with hc1 | hc2
      · subst hc1
        by_cases hd : c = '\n'
        · exact Or.inl hd
        · refine Or.inr ⟨c :: l0, ?_, List.mem_cons_self _ _⟩
          rw [show splitNL (c :: rest) = (c :: l0) :: ls0 by
            simp only [splitNL, if_neg hd, hsp]]
          exact List.mem_cons_self _ _
      · rcases ih c hc2 with h1 | ⟨ln, hln, hcln⟩
        · exact Or.inl h1
        · by_cases hd : d = '\n'
          · subst hd
            refine Or.inr ⟨ln, ?_, hcln⟩
            rw [show splitNL ('\n' :: rest) = [] :: splitNL rest by simp [splitNL]]
            exact List.mem_cons_of_mem _ hln
          · rw [hsp] at hln
            rcases List.mem_cons.mp hln with hln1 | hln2
            · refine Or.inr ⟨d :: l0, ?_, ?_⟩
              · rw [show splitNL (d :: rest) = (d :: l0) :: ls0 by
                  simp only [splitNL, if_neg hd, hsp]]
                exact List.mem_cons_self _ _
              · exact hln1 ▸ List.mem_cons_of_mem _ hcln
            · refine Or.inr ⟨ln, ?_, hcln⟩
              rw [show splitNL (d :: rest) = (d :: l0) :: ls0 by
                simp only [splitNL, if_neg hd, hsp]]
              exact List.mem_cons_of_mem _ hln2

/-- In a text with no non-empty line, every character is a newline or
whitespace. -/
theorem blank_chars (l : List Char) (h : allLinesBlank l = true) :
    ∀ c ∈ l, c = '\n' ∨ jsWhitespace c = true := by
  intro c hc
  rcases mem_splitNL l c hc with h1 | ⟨ln, hln, hcln⟩
  · exact Or.inl h1
  · unfold allLinesBlank at h
    rw [List.all_eq_true] at h
    have hb := h ln hln
    rw [List.all_eq_true] at hb
    exact Or.inr (hb c hcln)

/-- The header test fails on a text with no non-empty line (its first byte
would have to be `\u0001`). -/
theorem checkHeader_of_blank (l : List Char) (h : allLinesBlank l = true) :
    checkHeader l = false := by
  by_cases hm : headMatches hdr7 l
  · exfalso
    unfold headMatches at hm
    have hm2 : l.take hdr7.length = hdr7 := of_decide_eq_true hm
    have h0 : '\x01' ∈ l.take hdr7.length := by
      rw [hm2]; exact List.mem_cons_self _ _
    have h1 : '\x01' ∈ l := List.mem_of_mem_take h0
    rcases blank_chars l h '\x01' h1 with h2 | h2
    · exact absurd h2 (by decide)
    · exact absurd h2 (by decide)
  · simp [checkHeader, hm]

/-- `stripHeader` is the identity on a text with no non-empty line. -/
theorem stripHeader_of_blank (l : List Char) (h : allLinesBlank l = true) :
    stripHeader l = l := by
  unfold stripHeader
  rw [checkHeader_of_blank l h]
  simp

/-- Filtering with a newline-preserving predicate keeps every line blank. -/
theorem allLinesBlank_filter (p : Char → Bool) (hp : p '\n' = true) (l : List Char)
    (h : allLinesBlank l = true) : allLinesBlank (l.filter p) = true := by
  unfold allLinesBlank at *
  rw [splitNL_filter p hp, List.all_eq_true]
  intro ln hln
  rw [List.mem_map] at hln
  obtain ⟨ln0, h0, rfl⟩ := hln
  rw [List.all_eq_true] at h ⊢
  intro c hc
  have hb := h ln0 h0
  rw [List.all_eq_true] at hb
  exact hb c (List.mem_filter.mp hc).1

/-- A text with no non-empty line has empty `lastNonEmptyLine`. -/
theorem lastNonEmptyLine_of_blank (l : List Char) (h : allLinesBlank l = true) :
    lastNonEmptyLine l = [] := by
  unfold lastNonEmptyLine
  have hfil : (splitNL l).filter (fun ln => ln.any (fun c => !jsWhitespace c)) = [] := by
    rw [List.filter_eq_nil_iff]
    intro ln hln hany
    rw [List.any_eq_true] at hany
    obtain ⟨c, hc, hnc⟩ := hany
    unfold allLinesBlank at h
    rw [List.all_eq_true] at h
    have hb := h ln hln
    rw [List.all_eq_true] at hb
    rw [hb c hc] at hnc
    cases hnc
  rw [hfil]
  rfl

/-- Claim C10: the empty string, and any output all of whose lines are
whitespace-only, is never classified as waiting for input, and its extracted
prompt is empty. -/
theorem blank_output_not_waiting (s : String) (h : allLinesBlank s.data = true) :
    isWaitingForInput s = false ∧ extractInputPrompt s = "" := by
  have h1 : allLinesBlank (s.data.filter (fun c => c ≠ '\r')) = true :=
    allLinesBlank_filter _ (by decide) _ h
  have hIW : lastNonEmptyLine (cleanIW s.data) = [] := by
    unfold cleanIW
    rw [stripHeader_of_blank _ h1]
    exact lastNonEmptyLine_of_blank _ h1
  have h2 : allLinesBlank (stripCtrl (s.data.filter (fun c => c ≠ '\r'))) = true := by
    unfold stripCtrl
    exact allLinesBlank_filter _ (by decide) _ h1
  have hEX : lastNonEmptyLine (cleanEX s.data) = [] := by
    unfold cleanEX
    rw [stripHeader_of_blank _ h1]
    exact lastNonEmptyLine_of_blank _ h2
  constructor
  · rw [isWaitingForInput_factor, hIW]
    have hq : hasQuestionPromptB [] = false := by decide
    have hcp : hasColonPromptB [] = false := by decide
    have hik : hasInputKeywordB [] = false := by decide
    have hep : endsWithPromptCharB [] = false := by decide
    simp [iwCore, hq, hcp, hik, hep]
  · rw [extractInputPrompt_factor, hEX]
    decide

/-- Witness for C10 at a concrete whitespace-only output. -/
theorem blank_output_not_waiting_witness :
    isWaitingForInput "  \n\t " = false ∧ extractInputPrompt "  \n\t " = "" :=
  blank_output_not_waiting "  \n\t " (by decide)
